import Mathlib

/-!
Verification development for the delta-brief generation pipeline.

The definitions below are a shallow embedding of the pipeline's core:

* `src/client/src/lib/similarity.ts` — text normalization (`normalizeTokens`),
  bigram extraction (`getBigrams`), Jaccard scoring (`jaccard`) and the
  repeat-detection loop (`checkNoRepeats`);
* the validation-gated retry orchestrator `generateBrief` together with its
  extraction helpers (`extractMoves`, the framework-tag capture of
  `extractStructuredData`) and its five validation gates;
* the alternative `generateBrief` of `src/client/src/lib/llm.ts` with its
  single similarity-driven retry and its fatal transport-error handler.

Text is modeled as `List Char` (the character sequence of a JavaScript
string; the code's inputs are ASCII, and `toLowerChar` models the ASCII
fragment of `String.prototype.toLowerCase`).  JavaScript `Set<string>` is
modeled as `Finset`, and floating-point scores are modeled as exact
rationals (`ℚ`): every score produced by the code is a ratio of two small
integers and every threshold comparison is against 0.5 or 0.6.
The generation service (`openai.chat.completions.create`) is modeled as an
explicit oracle `List Msg → Except (List Char) (List Char)`: `.ok` carries
the returned text, `.error` carries the thrown error's message.
-/

namespace DeltaBrief

/-- Whitespace characters matched by the JavaScript `\s` class (ASCII part). -/
def wsChar (c : Char) : Bool :=
  c = ' ' || c = '\t' || c = '\n' || c = '\r' || c = '\x0B' || c = '\x0C'

/-- Characters kept by the replacement `replace(/[^a-z0-9\s]/g, ' ')`
(other than whitespace): lower-case letters and digits. -/
def lowerAlnum (c : Char) : Bool :=
  ('a' ≤ c && c ≤ 'z') || ('0' ≤ c && c ≤ '9')

/-- ASCII model of JavaScript `toLowerCase` (the repository's inputs are ASCII). -/
def toLowerChar (c : Char) : Char :=
  if 'A' ≤ c ∧ c ≤ 'Z' then Char.ofNat (c.toNat + 32) else c

/-- One character step of `replace(/[^a-z0-9\s]/g, ' ')`: any character that is
not a lower-case letter, digit or whitespace becomes a space. -/
def cleanChar (c : Char) : Char :=
  if lowerAlnum c || wsChar c then c else ' '

/-- `split(/\s+/)` fused with the immediately following
`.filter(t => t.length > 0)`: the maximal non-whitespace runs, in order.
(The raw JavaScript split can yield empty pieces at the ends; those are
removed by the length filter in the source, so the fused form is exact.)
`acc` holds the current run, reversed. -/
def splitWsRuns : List Char → List Char → List (List Char)
  | [], acc => if acc.isEmpty then [] else [acc.reverse]
  | c :: cs, acc =>
    if wsChar c then
      if acc.isEmpty then splitWsRuns cs []
      else acc.reverse :: splitWsRuns cs []
    else splitWsRuns cs (c :: acc)

/-- The stopword set of `similarity.ts`. -/
def STOPWORDS : List (List Char) :=
  ["the", "a", "an", "to", "of", "for", "and", "in", "on", "with", "by"].map
    String.data

/-- The crude suffix stripping of `normalizeTokens`, with the source's rule
order: `ing` (drop 3), else `ed` (drop 2), else `s`-but-not-`ss` (drop 1).
`slice(0, -k)` is modeled by `k` applications of `dropLast`. -/
def stripToken (t : List Char) : List Char :=
  if List.isSuffixOf ['i', 'n', 'g'] t then t.dropLast.dropLast.dropLast
  else if List.isSuffixOf ['e', 'd'] t then t.dropLast.dropLast
  else if List.isSuffixOf ['s'] t && !(List.isSuffixOf ['s', 's'] t) then t.dropLast
  else t

/-- `normalizeTokens` of `similarity.ts`: lower-case, replace characters
outside `[a-z0-9\s]` by a space, split on whitespace runs, drop empty
tokens, drop stopwords, strip suffixes.  Order matters: the emptiness and
stopword filters run before suffix stripping. -/
def normalizeTokens (s : List Char) : List (List Char) :=
  (((splitWsRuns ((s.map toLowerChar).map cleanChar) []).filter
      (fun t => !(STOPWORDS.contains t))).map stripToken)

/-- `join(" ")` on a token list. -/
def joinSep (sep : List Char) : List (List Char) → List Char
  | [] => []
  | [t] => t
  | t :: ts => t ++ sep ++ joinSep sep ts

/-- The canonical string of a token sequence: tokens joined by single spaces. -/
def joinSpace (ts : List (List Char)) : List Char := joinSep [' '] ts

/-- The bigram strings of `getBigrams`, in formation order:
`tokens[i] + "_" + tokens[i+1]` for each adjacent pair. -/
def bigramsList : List (List Char) → List (List Char)
  | t1 :: t2 :: ts => (t1 ++ '_' :: t2) :: bigramsList (t2 :: ts)
  | _ => []

/-- `getBigrams` of `similarity.ts`: the JavaScript `Set` of bigram strings,
modeled as a `Finset`. -/
def getBigrams (ts : List (List Char)) : Finset (List Char) :=
  (bigramsList ts).toFinset

/-- `jaccard` of `similarity.ts`.  `a.size === 0 && b.size === 0` returns 1,
exactly one empty returns 0; otherwise intersection size over
`a.size + b.size - intersection` (the code's union count). -/
def jaccard (a b : Finset (List Char)) : ℚ :=
  if a.card = 0 ∧ b.card = 0 then 1
  else if a.card = 0 ∨ b.card = 0 then 0
  else
    ((a ∩ b).card : ℚ) / ((a.card : ℚ) + (b.card : ℚ) - ((a ∩ b).card : ℚ))

/-- The Jaccard similarity as the specification words it: intersection size
divided by the size of the (actual) union. -/
def jaccardSpec (a b : Finset (List Char)) : ℚ :=
  if a = ∅ ∧ b = ∅ then 1
  else if a = ∅ ∨ b = ∅ then 0
  else ((a ∩ b).card : ℚ) / ((a ∪ b).card : ℚ)

/-- The per-pair reason tags of `similarity.ts`. -/
inductive Reason where
  | exact
  | high_similarity
  deriving DecidableEq, Repr

/-- The threshold rule of `checkNoRepeats`: 0.50 when either normalized
sequence has length at most 6, else 0.60. -/
def thresholdFor (normNew normPrev : List (List Char)) : ℚ :=
  if normNew.length ≤ 6 ∨ normPrev.length ≤ 6 then 1 / 2 else 3 / 5

/-- Score and reason of one (newMove, prevMove) pair. -/
structure PairScore where
  score : ℚ
  reason : Option Reason
  deriving DecidableEq, Repr

/-- The body of the double loop of `checkNoRepeats` for one
(newMove, prevMove) pair: exact match on the canonical strings first, else
Jaccard over bigram sets with the threshold rule (`score >= threshold` sets
the reason to `high_similarity`). -/
def scorePair (newMove prevMove : List Char) : PairScore :=
  if joinSpace (normalizeTokens newMove) = joinSpace (normalizeTokens prevMove) then
    ⟨1, some Reason.exact⟩
  else if thresholdFor (normalizeTokens newMove) (normalizeTokens prevMove) ≤
      jaccard (getBigrams (normalizeTokens newMove)) (getBigrams (normalizeTokens prevMove)) then
    ⟨jaccard (getBigrams (normalizeTokens newMove)) (getBigrams (normalizeTokens prevMove)),
      some Reason.high_similarity⟩
  else
    ⟨jaccard (getBigrams (normalizeTokens newMove)) (getBigrams (normalizeTokens prevMove)),
      none⟩

/-- One flagged collision of the similarity report. -/
structure SimilarityPair where
  newMove : List Char
  prevMove : List Char
  score : ℚ
  reason : Reason
  deriving DecidableEq, Repr

/-- The aggregate report of `checkNoRepeats`. -/
structure SimilarityReport where
  pass : Bool
  maxScore : ℚ
  pairs : List SimilarityPair
  deriving DecidableEq, Repr

/-- One iteration of the inner loop of `checkNoRepeats`: update `maxScore`,
and on a non-null reason set `pass := false` and append the pair. -/
def pairStep (rep : SimilarityReport) (newMove prevMove : List Char) :
    SimilarityReport :=
  let ps := scorePair newMove prevMove
  let maxScore := if rep.maxScore < ps.score then ps.score else rep.maxScore
  match ps.reason with
  | some r => ⟨false, maxScore, rep.pairs ++ [⟨newMove, prevMove, ps.score, r⟩]⟩
  | none => ⟨rep.pass, maxScore, rep.pairs⟩

/-- `checkNoRepeats(prevMoves, newMoves)` of `similarity.ts`: outer loop over
`newMoves`, inner loop over `prevMoves`, starting from
`{pass: true, maxScore: 0, pairs: []}`. -/
def checkNoRepeats (prevMoves newMoves : List (List Char)) : SimilarityReport :=
  newMoves.foldl
    (fun rep newMove =>
      prevMoves.foldl (fun rep prevMove => pairStep rep newMove prevMove) rep)
    ⟨true, 0, []⟩

/-! ### Embedding of the retry orchestrator and its extraction helpers.

The orchestrator is the `generateBrief` with the `MAX_RETRIES` validation
loop; `llmGenerateBrief` below embeds the `llm.ts` variant with its single
similarity-driven retry.  Fields of the returned result that no gate and no
claim reads (`structuredData.resolver/openThreads/nextAction`,
`memoryHighlights`) are not modeled; `calls` and `convs` are ghost
instrumentation counting the generation-service calls and recording the
conversation passed to each. -/

/-- JavaScript `String.prototype.trim` (ASCII whitespace). -/
def trimChars (t : List Char) : List Char :=
  ((t.dropWhile wsChar).reverse.dropWhile wsChar).reverse

/-- Split on `'\n'`, keeping empty lines: the lines scanned by a `^...$`
multiline regex.  (Lines are assumed not to span `\r`; the `\s*` of the
source patterns never crosses a line boundary in the documents modeled
here.) -/
def splitOnNl : List Char → List Char → List (List Char)
  | [], acc => [acc.reverse]
  | c :: cs, acc =>
    if c = '\n' then acc.reverse :: splitOnNl cs [] else splitOnNl cs (c :: acc)

def digitChar (c : Char) : Bool := '0' ≤ c && c ≤ '9'

/-- Per-line matcher for the ranked-entry pattern of `extractMoves`:
one or more digits, a closing parenthesis, optional whitespace, the literal
`Move:`, then the captured rest of the line (at least one character; the
leading `\s*` of the capture is absorbed by the `trim` applied to the
match). -/
def matchMoveLine (l : List Char) : Option (List Char) :=
  if (l.takeWhile digitChar).isEmpty then none
  else
    match l.dropWhile digitChar with
    | ')' :: r1 =>
      if List.isPrefixOf "Move:".data (r1.dropWhile wsChar) then
        if ((r1.dropWhile wsChar).drop 5).isEmpty then none
        else some (trimChars ((r1.dropWhile wsChar).drop 5))
      else none
    | _ => none

/-- `extractMoves`: every line matching the ranked-entry pattern, captured
and trimmed, in line order. -/
def extractMoves (md : List Char) : List (List Char) :=
  (splitOnNl md []).filterMap matchMoveLine

def FRAMEWORK_OPEN : List Char := "(Framework:".data

/-- Index of the first `')'` at position at least 1 (the lazy `(.+?)\)`
needs at least one captured character before the closing parenthesis). -/
def firstCloseParen : List Char → Nat → Option Nat
  | [], _ => none
  | c :: cs, i => if c = ')' ∧ 1 ≤ i then some i else firstCloseParen cs (i + 1)

/-- The `\s*(.+?)\)` tail after `(Framework:`: the (trimmed) text before the
first closing parenthesis, provided at least one character precedes it. -/
def fwCapture (r : List Char) : Option (List Char) :=
  match firstCloseParen r 0 with
  | some j => some (trimChars (r.take j))
  | none => none

/-- Scan for successive occurrences of `(Framework:`, taking the first whose
capture tail succeeds (the regex backtracks to a later occurrence when the
tail fails). -/
def scanFramework : List Char → Option (List Char)
  | [] => none
  | c :: cs =>
    if List.isPrefixOf FRAMEWORK_OPEN (c :: cs) then
      match fwCapture ((c :: cs).drop FRAMEWORK_OPEN.length) with
      | some cap => some cap
      | none => scanFramework cs
    else scanFramework cs

/-- Per-line matcher for the framework-capture pattern of
`extractStructuredData`: the ranked-entry head, then a lazy gap of at least
one character, then `(Framework:` with its capture. -/
def matchFrameworkLine (l : List Char) : Option (List Char) :=
  if (l.takeWhile digitChar).isEmpty then none
  else
    match l.dropWhile digitChar with
    | ')' :: r1 =>
      if List.isPrefixOf "Move:".data (r1.dropWhile wsChar) then
        match (r1.dropWhile wsChar).drop 5 with
        | [] => none
        | _ :: rest => scanFramework rest
      else none
    | _ => none

/-- The `frameworkByMove` capture of `extractStructuredData`: the category
tag of every ranked-entry line, verbatim (trimmed), in line order. -/
def extractFrameworks (md : List Char) : List (List Char) :=
  (splitOnNl md []).filterMap matchFrameworkLine

def countSubAux (pat : List Char) : Nat → List Char → Nat
  | 0, _ => 0
  | _ + 1, [] => 0
  | fuel + 1, c :: cs =>
    if List.isPrefixOf pat (c :: cs) then
      countSubAux pat fuel ((c :: cs).drop pat.length) + 1
    else countSubAux pat fuel cs

/-- The number of matches of `text.match(/literal/g)`: non-overlapping,
scanning left to right.  The fuel bounds the scan steps; `text.length`
suffices because every step advances at least one character (the patterns
used are non-empty). -/
def countSub (pat text : List Char) : Nat := countSubAux pat text.length text

/-- One chat message of the conversation sent to the generation service. -/
structure Msg where
  role : List Char
  content : List Char
  deriving DecidableEq, Repr

/-- The conversation built for each call of the validation-retry
orchestrator: the system prompt followed by the (feedback-extended) user
prompt. -/
def mkMessages (sys usr : List Char) : List Msg :=
  [⟨"system".data, sys⟩, ⟨"user".data, usr⟩]

/-- The validation errors, one constructor per `validationErrors.push` site
of the source; `VError.msg` renders the exact pushed string. -/
inductive VError where
  | wrongMoveCount (found : Nat)
  | invalidFrameworks (invalid allowed : List (List Char))
  | duplicateResolutionMarker (count : Nat)
  | duplicateHighlightsSection
  | similarityFailed (pairs : List SimilarityPair)
  deriving DecidableEq, Repr

def natChars (n : Nat) : List Char := (Nat.repr n).data

def VError.msg : VError → List Char
  | .wrongMoveCount n =>
      "Expected exactly 3 moves, but found ".data ++ natChars n
        ++ ". Please regenerate with exactly 3 moves.".data
  | .invalidFrameworks invalid allowed =>
      "Found invalid framework names: ".data ++ joinSep ", ".data invalid
        ++ ". You MUST use only names from the provided list: ".data
        ++ joinSep ", ".data allowed ++ ".".data
  | .duplicateResolutionMarker n =>
      "Found ".data ++ natChars n
        ++ " \"Open Thread Update\" lines. Please include this line ONLY ONCE for the single most relevant move.".data
  | .duplicateHighlightsSection =>
      "Found duplicate \"Memory highlights used\" sections. Please ensure the section appears only once at the end.".data
  | .similarityFailed pairs =>
      "Similarity check failed: ".data
        ++ joinSep "; ".data (pairs.map fun p =>
            "\"".data ++ p.newMove ++ "\" is too similar to \"".data
              ++ p.prevMove ++ "\"".data)
        ++ ". Please rewrite the moves to be distinct from the previous brief.".data

/-- The `lastBrief` memory as the orchestrator reads it: only
`payload.moves` matters (`none` models a falsy/absent `payload.moves`). -/
structure LastBriefInfo where
  moves : Option (List (List Char))
  deriving DecidableEq, Repr

/-- The orchestrator inputs the gates depend on. -/
structure GateParams where
  frameworkNames : List (List Char)
  lastBrief : Option LastBriefInfo
  enableSimilarityCheck : Bool
  deriving DecidableEq, Repr

def MARKER : List Char := "Open Thread Update: Previously:".data

def HIGHLIGHTS_HEADING : List Char := "## Memory highlights used".data

/-- Gate 1: exactly 3 moves. -/
def gateMoveCount (moves : List (List Char)) : List VError :=
  if moves.length ≠ 3 then [.wrongMoveCount moves.length] else []

/-- The framework tags of the document that are not in the allow-list
(exact string match). -/
def invalidFrameworksOf (frameworkNames : List (List Char)) (md : List Char) :
    List (List Char) :=
  (extractFrameworks md).filter fun f => !(frameworkNames.contains f)

/-- Gate 2: framework validity.  The gate body runs only when the allow-list
is non-empty, and pushes one aggregated error listing every invalid name. -/
def gateFrameworks (frameworkNames : List (List Char)) (md : List Char) :
    List VError :=
  if 0 < frameworkNames.length then
    if 0 < (invalidFrameworksOf frameworkNames md).length then
      [.invalidFrameworks (invalidFrameworksOf frameworkNames md) frameworkNames]
    else []
  else []

/-- Gate 3: single resolution-marker occurrence.  The whole check is guarded
by the presence of `lastBrief`, and only a count strictly greater than 1
pushes an error. -/
def gateMarker (lastBrief : Option LastBriefInfo) (md : List Char) : List VError :=
  match lastBrief with
  | some _ =>
    if countSub MARKER md ≠ 1 then
      if 1 < countSub MARKER md then
        [.duplicateResolutionMarker (countSub MARKER md)]
      else []
    else []
  | none => []

/-- Gate 4: no duplicated "Memory highlights used" section. -/
def gateHighlights (md : List Char) : List VError :=
  if 1 < countSub HIGHLIGHTS_HEADING md then [.duplicateHighlightsSection] else []

/-- Gate 6: the similarity check, run only when enabled and `lastBrief` with
truthy `payload.moves` is present.  The source calls
`checkNoRepeats(moves, lastBrief.payload.moves)`, i.e. with the fresh moves
in the `prevMoves` parameter position — embedded as called.  Returns the
report (assigned whenever the gate ran) and the pushed error. -/
def gateSimilarity (p : GateParams) (moves : List (List Char)) :
    Option SimilarityReport × List VError :=
  if p.enableSimilarityCheck then
    match p.lastBrief with
    | some lb =>
      match lb.moves with
      | some pm =>
        (some (checkNoRepeats moves pm),
          if (checkNoRepeats moves pm).pass then []
          else [.similarityFailed (checkNoRepeats moves pm).pairs])
      | none => (none, [])
    | none => (none, [])
  else (none, [])

/-- The validation section of the orchestrator: all gates evaluated, errors
in push order.  Gate 5 (the delta keyword check) only logs a console
warning and never pushes an error. -/
def runValidation (p : GateParams) (md : List Char) :
    List VError × Option SimilarityReport :=
  (gateMoveCount (extractMoves md) ++ gateFrameworks p.frameworkNames md
      ++ gateMarker p.lastBrief md ++ gateHighlights md
      ++ (gateSimilarity p (extractMoves md)).2,
    (gateSimilarity p (extractMoves md)).1)

/-- The mutable variables of the `while` loop that survive across
iterations, plus the ghost fields `calls` and `convs`. -/
structure BriefState where
  retryCount : Nat
  userPrompt : List Char
  markdown : List Char
  moves : List (List Char)
  similarityReport : Option SimilarityReport
  calls : Nat
  convs : List (List Msg)
  deriving DecidableEq, Repr

def MAX_RETRIES : Nat := 2

def FEEDBACK_HEADER : List Char :=
  "\n\nPREVIOUS ATTEMPT FAILED VALIDATION. PLEASE FIX THESE ISSUES:\n".data

/-- The message of the `Error` thrown when validation fails. -/
def validationFailedMsg (errors : List VError) : List Char :=
  "Validation failed:\n- ".data ++ joinSep "\n- ".data (errors.map VError.msg)

/-- `similarityReport = report` happens only when gate 6 ran; otherwise the
outer variable keeps its previous value. -/
def updatedSimReport (p : GateParams) (st : Option SimilarityReport)
    (md : List Char) : Option SimilarityReport :=
  match (runValidation p md).2 with
  | some r => some r
  | none => st

/-- The `while (retryCount <= MAX_RETRIES)` loop of the orchestrator.
On `.ok` the attempt's text is extracted and validated; a non-empty error
list is thrown and caught by the `catch` block, which increments
`retryCount`, breaks when the budget is exceeded, and otherwise appends the
feedback to the user prompt and loops.  A transport-level `.error` reaches
the same `catch` block (with the thrown error's message as feedback) — the
loop variables that the failed attempt never assigned keep their previous
values.  Fuel-indexed for structural recursion; `MAX_RETRIES + 1` units
suffice because `retryCount` strictly increases on every recursive call and
the loop guard stops it at `MAX_RETRIES`. -/
def briefLoop (complete : List Msg → Except (List Char) (List Char))
    (p : GateParams) (sys : List Char) : Nat → BriefState → BriefState
  | 0, st => st
  | fuel + 1, st =>
    if st.retryCount ≤ MAX_RETRIES then
      match complete (mkMessages sys st.userPrompt) with
      | .ok md =>
        if 0 < (runValidation p md).1.length then
          if MAX_RETRIES < st.retryCount + 1 then
            { st with retryCount := st.retryCount + 1, markdown := md,
                      moves := extractMoves md,
                      similarityReport := updatedSimReport p st.similarityReport md,
                      calls := st.calls + 1,
                      convs := st.convs ++ [mkMessages sys st.userPrompt] }
          else
            briefLoop complete p sys fuel
              { st with retryCount := st.retryCount + 1, markdown := md,
                        moves := extractMoves md,
                        similarityReport := updatedSimReport p st.similarityReport md,
                        calls := st.calls + 1,
                        convs := st.convs ++ [mkMessages sys st.userPrompt],
                        userPrompt := st.userPrompt ++ FEEDBACK_HEADER
                          ++ validationFailedMsg (runValidation p md).1 }
        else
          { st with markdown := md, moves := extractMoves md,
                    similarityReport := updatedSimReport p st.similarityReport md,
                    calls := st.calls + 1,
                    convs := st.convs ++ [mkMessages sys st.userPrompt] }
      | .error e =>
        if MAX_RETRIES < st.retryCount + 1 then
          { st with retryCount := st.retryCount + 1, calls := st.calls + 1,
                    convs := st.convs ++ [mkMessages sys st.userPrompt] }
        else
          briefLoop complete p sys fuel
            { st with retryCount := st.retryCount + 1, calls := st.calls + 1,
                      convs := st.convs ++ [mkMessages sys st.userPrompt],
                      userPrompt := st.userPrompt ++ FEEDBACK_HEADER ++ e }
    else st

/-- The validation-retry `generateBrief`: initial state, loop, and the
returned `BriefState` (the source returns `markdown`, `moves`,
`similarityReport` and `usage.retryCount` from these variables; no error
list is part of the returned result). -/
def generateBrief (complete : List Msg → Except (List Char) (List Char))
    (p : GateParams) (sys usr : List Char) : BriefState :=
  briefLoop complete p sys (MAX_RETRIES + 1)
    { retryCount := 0, userPrompt := usr, markdown := [], moves := [],
      similarityReport := none, calls := 0, convs := [] }

/-! ### Embedding of the `llm.ts` variant of `generateBrief`. -/

structure LlmParams where
  isPersonalized : Bool
  enableSimilarityCheck : Bool
  lastBrief : Option LastBriefInfo
  deriving DecidableEq, Repr

structure LlmResult where
  markdown : List Char
  moves : List (List Char)
  similarityReport : Option SimilarityReport
  retryCount : Nat
  deriving DecidableEq, Repr

def FATAL_MSG : List Char :=
  "Failed to generate brief. Please check your API key.".data

def GEN_ERROR_TEXT : List Char := "Error generating brief.".data

/-- The repeat-avoidance instruction appended on the similarity retry. -/
def retryInstruction (prevMoves : List (List Char)) : List Char :=
  "\nRepeat-avoidance constraint:\nDo NOT reuse or closely paraphrase these previous Move titles:\n".data
    ++ joinSep "\n".data (prevMoves.map fun m => "- ".data ++ m)
    ++ "\n\nYour new 3 Move titles must be materially different in topic and wording.\nIf you reference an earlier theme, change the angle and explicitly state “what changed” as the novelty.\n".data

/-- The `generateBrief` of `llm.ts`: one generation call, an optional single
similarity-driven retry (prior raw text pushed as an assistant message plus
the retry instruction), and a `catch` that converts any thrown service
error into the fatal message.  `content || "Error generating brief."`
substitutes the fallback when the returned content is empty.  The second
component counts the generation-service calls made. -/
def llmGenerateBrief (complete : List Msg → Except (List Char) (List Char))
    (p : LlmParams) (sys usr : List Char) :
    Except (List Char) LlmResult × Nat :=
  match complete (mkMessages sys usr) with
  | .error _ => (.error FATAL_MSG, 1)
  | .ok c1 =>
    let markdown := if c1.isEmpty then GEN_ERROR_TEXT else c1
    let moves := extractMoves markdown
    match
      (if p.enableSimilarityCheck && p.isPersonalized then
        match p.lastBrief with
        | some lb => lb.moves
        | none => none
      else none : Option (List (List Char)))
    with
    | none => (.ok ⟨markdown, moves, none, 0⟩, 1)
    | some prevMoves =>
      if (checkNoRepeats prevMoves moves).pass then
        (.ok ⟨markdown, moves, some (checkNoRepeats prevMoves moves), 0⟩, 1)
      else
        match
          complete (mkMessages sys usr ++
            [⟨"assistant".data, markdown⟩,
             ⟨"user".data, retryInstruction prevMoves⟩])
        with
        | .error _ => (.error FATAL_MSG, 2)
        | .ok c2 =>
          (.ok ⟨if c2.isEmpty then GEN_ERROR_TEXT else c2,
              extractMoves (if c2.isEmpty then GEN_ERROR_TEXT else c2),
              some (checkNoRepeats prevMoves
                (extractMoves (if c2.isEmpty then GEN_ERROR_TEXT else c2))),
              1⟩, 2)

/-! Concrete generation-service oracles used by the concrete runs below. -/

/-- A service that always succeeds at the transport level but returns a text
with no ranked-entry lines, so every attempt fails the move-count gate. -/
def alwaysOkBad : List Msg → Except (List Char) (List Char) := fun _ => .ok "x".data

/-- A service whose text is a recognizable raw marker (still failing
validation). -/
def alwaysOkRaw : List Msg → Except (List Char) (List Char) :=
  fun _ => .ok "XRAWX".data

/-- A service that always fails at the transport level. -/
def alwaysErr : List Msg → Except (List Char) (List Char) :=
  fun _ => .error "boom".data

/-- Gate parameters with no allow-list, no prior brief, similarity check
disabled. -/
def plainParams : GateParams := ⟨[], none, false⟩

/-! Helper lemmas about the scorer. -/

theorem card_eq_zero_iff_empty (a : Finset (List Char)) : a.card = 0 ↔ a = ∅ :=
  Finset.card_eq_zero

/-- The code's union count `a.size + b.size - intersection` (computed without
truncation, in the rationals) agrees with the size of the actual union, so
the code's score is the specification's Jaccard similarity. -/
theorem jaccard_eq_jaccardSpec (a b : Finset (List Char)) :
    jaccard a b = jaccardSpec a b := by
  unfold jaccard jaccardSpec
  by_cases ha : a = ∅ <;> by_cases hb : b = ∅
  · simp [ha, hb]
  · have hbc : b.card ≠ 0 := fun h => hb (Finset.card_eq_zero.mp h)
    simp [ha, hb, hbc]
  · have hac : a.card ≠ 0 := fun h => ha (Finset.card_eq_zero.mp h)
    simp [ha, hb, hac]
  · have hac : a.card ≠ 0 := fun h => ha (Finset.card_eq_zero.mp h)
    have hbc : b.card ≠ 0 := fun h => hb (Finset.card_eq_zero.mp h)
    have hu : ((a ∪ b).card : ℚ) + ((a ∩ b).card : ℚ)
        = (a.card : ℚ) + (b.card : ℚ) := by
      exact_mod_cast congrArg (Nat.cast : ℕ → ℚ) (Finset.card_union_add_card_inter a b)
    have hcard : (a.card : ℚ) + (b.card : ℚ) - ((a ∩ b).card : ℚ)
        = ((a ∪ b).card : ℚ) := by linarith
    rw [if_neg fun hh => hac hh.1, if_neg fun hh => hh.elim hac hbc,
      if_neg fun hh => ha hh.1, if_neg fun hh => hh.elim ha hb, hcard]

theorem jaccard_comm (a b : Finset (List Char)) : jaccard a b = jaccard b a := by
  rw [jaccard_eq_jaccardSpec, jaccard_eq_jaccardSpec]
  unfold jaccardSpec
  by_cases ha : a = ∅ <;> by_cases hb : b = ∅
  · simp [ha, hb]
  · simp [ha, hb]
  · simp [ha, hb]
  · rw [if_neg fun hh => ha hh.1, if_neg fun hh => hh.elim ha hb,
      if_neg fun hh => hb hh.1, if_neg fun hh => hh.elim hb ha,
      Finset.inter_comm, Finset.union_comm]

theorem thresholdFor_comm (x y : List (List Char)) :
    thresholdFor x y = thresholdFor y x := by
  unfold thresholdFor
  by_cases hx : x.length ≤ 6 <;> by_cases hy : y.length ≤ 6 <;>
    simp [hx, hy]

/-! Claim theorems about the similarity scorer. -/

/-- C7: similarity scoring is symmetric: the per-pair score and reason
computed by the loop body of `checkNoRepeats` for (candidate a, reference b)
equal those computed for (candidate b, reference a) — the exact-match test,
the Jaccard computation, and the either-sequence-short threshold rule are
all invariant under swapping the two inputs. -/
theorem similarity_scoring_symmetric (a b : List Char) :
    scorePair a b = scorePair b a := by
  unfold scorePair
  rw [jaccard_comm (getBigrams (normalizeTokens a)) (getBigrams (normalizeTokens b)),
    thresholdFor_comm (normalizeTokens a) (normalizeTokens b)]
  by_cases h : joinSpace (normalizeTokens a) = joinSpace (normalizeTokens b)
  · rw [if_pos h, if_pos h.symm]
  · rw [if_neg h,
      if_neg (show ¬joinSpace (normalizeTokens b) = joinSpace (normalizeTokens a)
        from fun hh => h hh.symm)]

/-- C5: whenever the two normalized token sequences joined with single
spaces are equal — including when both normalize to the empty sequence —
the scorer returns score 1 with reason `exact`, taking priority over the
bigram/Jaccard path; moreover "The quick brown fox jumps" and
"Quick brown fox jumping" both normalize to the same 4-token sequence
(stopword removal and suffix stripping), so that pair is `exact`
(see the witness). -/
theorem exact_match_priority :
    (∀ a b : List Char,
      joinSpace (normalizeTokens a) = joinSpace (normalizeTokens b) →
        scorePair a b = ⟨1, some Reason.exact⟩)
    ∧ normalizeTokens "The quick brown fox jumps".data
        = ["quick".data, "brown".data, "fox".data, "jump".data]
    ∧ normalizeTokens "Quick brown fox jumping".data
        = ["quick".data, "brown".data, "fox".data, "jump".data] := by
  refine ⟨fun a b h => ?_, by decide, by decide⟩
  unfold scorePair
  rw [if_pos h]

/-- Witness for C5 at the spec's concrete pair (both sides normalize to
`quick brown fox jump`). -/
theorem exact_match_priority_witness :
    scorePair "The quick brown fox jumps".data "Quick brown fox jumping".data
      = ⟨1, some Reason.exact⟩ :=
  exact_match_priority.1 "The quick brown fox jumps".data
    "Quick brown fox jumping".data (by decide)

/-- C4: when the canonical (joined) normalized strings differ, the score is
the Jaccard similarity of the bigram sets — intersection size over union
size, 1 when both sets are empty, 0 when exactly one is — and the pair is
flagged `high_similarity` exactly when the score meets the threshold
(0.50 when either token sequence has length ≤ 6, else 0.60; see
`thresholdFor`); the singleton report of `checkNoRepeats` records a pair
exactly when the reason is non-null. -/
theorem jaccard_path_and_threshold (a b : List Char)
    (h : joinSpace (normalizeTokens a) ≠ joinSpace (normalizeTokens b)) :
    (scorePair a b).score
        = jaccardSpec (getBigrams (normalizeTokens a)) (getBigrams (normalizeTokens b))
    ∧ ((scorePair a b).reason = some Reason.high_similarity
        ↔ thresholdFor (normalizeTokens a) (normalizeTokens b) ≤ (scorePair a b).score)
    ∧ ((checkNoRepeats [b] [a]).pairs ≠ [] ↔ (scorePair a b).reason ≠ none) := by
  have hrep : checkNoRepeats [b] [a] = pairStep ⟨true, 0, []⟩ a b := rfl
  by_cases hth : thresholdFor (normalizeTokens a) (normalizeTokens b) ≤
      jaccard (getBigrams (normalizeTokens a)) (getBigrams (normalizeTokens b))
  · have hs : scorePair a b
        = ⟨jaccard (getBigrams (normalizeTokens a)) (getBigrams (normalizeTokens b)),
            some Reason.high_similarity⟩ := by
      unfold scorePair
      rw [if_neg h, if_pos hth]
    refine ⟨?_, ?_, ?_⟩
    · rw [hs]
      exact jaccard_eq_jaccardSpec _ _
    · rw [hs]
      simp [hth]
    · rw [hrep]
      unfold pairStep
      simp [hs]
  · have hs : scorePair a b
        = ⟨jaccard (getBigrams (normalizeTokens a)) (getBigrams (normalizeTokens b)),
            none⟩ := by
      unfold scorePair
      rw [if_neg h, if_neg hth]
    refine ⟨?_, ?_, ?_⟩
    · rw [hs]
      exact jaccard_eq_jaccardSpec _ _
    · rw [hs]
      simp [hth]
    · rw [hrep]
      unfold pairStep
      simp [hs]

/-- Witness for C4 at a concrete non-identical pair ("alpha beta" vs
"gamma delta": disjoint bigram sets, score 0, not flagged). -/
theorem jaccard_path_and_threshold_witness :
    (scorePair "alpha beta".data "gamma delta".data).score
        = jaccardSpec (getBigrams (normalizeTokens "alpha beta".data))
            (getBigrams (normalizeTokens "gamma delta".data))
    ∧ ((scorePair "alpha beta".data "gamma delta".data).reason
          = some Reason.high_similarity
        ↔ thresholdFor (normalizeTokens "alpha beta".data)
            (normalizeTokens "gamma delta".data)
          ≤ (scorePair "alpha beta".data "gamma delta".data).score)
    ∧ ((checkNoRepeats ["gamma delta".data] ["alpha beta".data]).pairs ≠ []
        ↔ (scorePair "alpha beta".data "gamma delta".data).reason ≠ none) :=
  jaccard_path_and_threshold "alpha beta".data "gamma delta".data (by decide)

/-- C10: normalization can return a token sequence containing the empty
string: the empty-token filter runs before suffix stripping, so a token
consisting only of a strippable suffix (the input "ing") normalizes to a
sequence holding one empty-string token, and for "running ing" the empty
token participates in the joined canonical string (trailing space) and in
bigram formation (`runn_`). -/
theorem empty_token_from_bare_suffix :
    normalizeTokens "ing".data = [[]]
    ∧ normalizeTokens "running ing".data = ["runn".data, ([] : List Char)]
    ∧ joinSpace (normalizeTokens "running ing".data) = "runn ".data
    ∧ bigramsList (normalizeTokens "running ing".data) = ["runn_".data] := by
  decide

/-! Lemmas leading to the re-normalization characterization (C6). -/

theorem lowerAlnum_not_ws {c : Char} (h : lowerAlnum c = true) :
    wsChar c = false := by
  cases hww : wsChar c with
  | false => rfl
  | true =>
    unfold wsChar at hww
    simp only [Bool.or_eq_true, decide_eq_true_eq] at hww
    rcases hww with ((((h1 | h1) | h1) | h1) | h1) | h1 <;> subst h1 <;>
      exact absurd h (by decide)

theorem toLowerChar_fix {c : Char} (h : lowerAlnum c = true) :
    toLowerChar c = c := by
  unfold toLowerChar
  rw [if_neg]
  rintro ⟨h1, h2⟩
  unfold lowerAlnum at h
  simp only [Bool.or_eq_true, Bool.and_eq_true, decide_eq_true_eq] at h
  rcases h with ⟨ha, _⟩ | ⟨_, h9⟩
  · exact absurd (le_trans ha h2) (by decide)
  · exact absurd (le_trans h1 h9) (by decide)

theorem cleanChar_fix {c : Char} (h : lowerAlnum c = true) :
    cleanChar c = c := by
  unfold cleanChar
  rw [if_pos (Bool.or_eq_true _ _ |>.mpr (Or.inl h))]

/-- Every character produced by `cleanChar` is whitespace or a lower-case
alphanumeric. -/
theorem cleanChar_spec (c : Char) :
    wsChar (cleanChar c) = true ∨ lowerAlnum (cleanChar c) = true := by
  unfold cleanChar
  by_cases h : (lowerAlnum c || wsChar c) = true
  · rw [if_pos h]
    rcases Bool.or_eq_true _ _ |>.mp h with h1 | h1
    · exact Or.inr h1
    · exact Or.inl h1
  · rw [if_neg h]
    exact Or.inl (by decide)

/-- Character-level invariant of `splitWsRuns`: if every input character is
whitespace or satisfies `Q`, and every accumulator character is
non-whitespace and satisfies `Q`, then every character of every produced
token is non-whitespace and satisfies `Q`. -/
theorem splitWsRuns_chars (Q : Char → Prop) :
    ∀ (l acc : List Char), (∀ c ∈ l, wsChar c = true ∨ Q c) →
      (∀ c ∈ acc, wsChar c = false ∧ Q c) →
      ∀ t ∈ splitWsRuns l acc, ∀ c ∈ t, wsChar c = false ∧ Q c := by
  intro l
  induction l with
  | nil =>
    intro acc _ hacc t ht c hc
    unfold splitWsRuns at ht
    by_cases he : acc.isEmpty
    · rw [if_pos he] at ht
      exact absurd ht (List.not_mem_nil t)
    · rw [if_neg he] at ht
      rcases List.mem_singleton.mp ht with rfl
      exact hacc c (List.mem_reverse.mp hc)
  | cons a l ih =>
    intro acc hl hacc t ht c hc
    unfold splitWsRuns at ht
    by_cases hw : wsChar a = true
    · rw [if_pos hw] at ht
      by_cases he : acc.isEmpty
      · rw [if_pos he] at ht
        exact ih [] (fun c hc => hl c (List.mem_cons_of_mem a hc))
          (fun c hc => absurd hc (List.not_mem_nil c)) t ht c hc
      · rw [if_neg he] at ht
        rcases List.mem_cons.mp ht with rfl | ht'
        · exact hacc c (List.mem_reverse.mp hc)
        · exact ih [] (fun c hc => hl c (List.mem_cons_of_mem a hc))
            (fun c hc => absurd hc (List.not_mem_nil c)) t ht' c hc
    · rw [if_neg hw] at ht
      have hQ : Q a := by
        rcases hl a (List.mem_cons_self a l) with h1 | h1
        · exact absurd h1 hw
        · exact h1
      refine ih (a :: acc) (fun c hc => hl c (List.mem_cons_of_mem a hc))
        (fun c hc => ?_) t ht c hc
      rcases List.mem_cons.mp hc with rfl | hc'
      · exact ⟨Bool.not_eq_true _ |>.mp hw, hQ⟩
      · exact hacc c hc'

theorem stripToken_subset {t : List Char} : ∀ c ∈ stripToken t, c ∈ t := by
  intro c hc
  unfold stripToken at hc
  split_ifs at hc
  · exact List.dropLast_subset _ (List.dropLast_subset _ (List.dropLast_subset _ hc))
  · exact List.dropLast_subset _ (List.dropLast_subset _ hc)
  · exact List.dropLast_subset _ hc
  · exact hc

/-- Every character of every token produced by `normalizeTokens` is a
lower-case alphanumeric. -/
theorem normalizeTokens_chars (s : List Char) :
    ∀ t ∈ normalizeTokens s, ∀ c ∈ t, lowerAlnum c = true := by
  intro t ht c hc
  unfold normalizeTokens at ht
  rcases List.mem_map.mp ht with ⟨u, hu, rfl⟩
  have hu' : u ∈ splitWsRuns ((s.map toLowerChar).map cleanChar) [] :=
    List.mem_of_mem_filter hu
  have hchars := splitWsRuns_chars (fun c => lowerAlnum c = true)
    ((s.map toLowerChar).map cleanChar) []
    (fun c hc => by
      rcases List.mem_map.mp hc with ⟨c', _, rfl⟩
      exact cleanChar_spec c')
    (fun c hc => absurd hc (List.not_mem_nil c))
    u hu'
  exact (hchars c (stripToken_subset c hc)).2

theorem map_fix {f : Char → Char} {l : List Char} (h : ∀ c ∈ l, f c = c) :
    l.map f = l := by
  induction l with
  | nil => rfl
  | cons a l ih =>
    rw [List.map_cons, h a (List.mem_cons_self a l),
      ih fun c hc => h c (List.mem_cons_of_mem a hc)]

/-- Every character of a space-joined token list comes from a token or is
the separating space. -/
theorem joinSpace_mem :
    ∀ (ts : List (List Char)) (c : Char), c ∈ joinSpace ts →
      (∃ t ∈ ts, c ∈ t) ∨ c = ' '
  | [], c, h => absurd h (List.not_mem_nil c)
  | [t], c, h => Or.inl ⟨t, List.mem_singleton_self t, h⟩
  | t :: t' :: ts, c, h => by
    have hj : joinSpace (t :: t' :: ts) = t ++ [' '] ++ joinSpace (t' :: ts) := rfl
    rw [hj] at h
    rcases List.mem_append.mp h with h1 | h2
    · rcases List.mem_append.mp h1 with h3 | h4
      · exact Or.inl ⟨t, List.mem_cons_self t _, h3⟩
      · exact Or.inr (List.mem_singleton.mp h4)
    · rcases joinSpace_mem (t' :: ts) c h2 with ⟨u, hu, hcu⟩ | hsp
      · exact Or.inl ⟨u, List.mem_cons_of_mem t hu, hcu⟩
      · exact Or.inr hsp

theorem splitWsRuns_nil (acc : List Char) :
    splitWsRuns [] acc = if acc.isEmpty then [] else [acc.reverse] := rfl

theorem splitWsRuns_cons_nonws (a : Char) (cs acc : List Char)
    (ha : wsChar a = false) :
    splitWsRuns (a :: cs) acc = splitWsRuns cs (a :: acc) := by
  conv_lhs => unfold splitWsRuns
  rw [if_neg (by rw [ha]; exact Bool.false_ne_true)]

theorem splitWsRuns_cons_ws (a : Char) (cs acc : List Char)
    (ha : wsChar a = true) :
    splitWsRuns (a :: cs) acc =
      if acc.isEmpty then splitWsRuns cs []
      else acc.reverse :: splitWsRuns cs [] := by
  conv_lhs => unfold splitWsRuns
  rw [if_pos ha]

/-- Consuming a non-whitespace run: `splitWsRuns` pushes its characters onto
the accumulator. -/
theorem splitWsRuns_append_run :
    ∀ (t cs acc : List Char), (∀ c ∈ t, wsChar c = false) →
      splitWsRuns (t ++ cs) acc = splitWsRuns cs (t.reverse ++ acc) := by
  intro t
  induction t with
  | nil => intro cs acc _; rfl
  | cons a t ih =>
    intro cs acc h
    have ha : wsChar a = false := h a (List.mem_cons_self a t)
    rw [List.cons_append, splitWsRuns_cons_nonws a (t ++ cs) acc ha,
      ih cs (a :: acc) fun c hc => h c (List.mem_cons_of_mem a hc),
      List.reverse_cons, List.append_assoc]
    rfl

/-- Splitting a space-joined token list on whitespace recovers exactly the
non-empty tokens, provided no token contains whitespace. -/
theorem splitWsRuns_joinSpace :
    ∀ ts : List (List Char), (∀ t ∈ ts, ∀ c ∈ t, wsChar c = false) →
      splitWsRuns (joinSpace ts) [] = ts.filter (fun t => !t.isEmpty) := by
  intro ts
  induction ts with
  | nil => intro _; rfl
  | cons t ts ih =>
    intro h
    have ht : ∀ c ∈ t, wsChar c = false := h t (List.mem_cons_self t ts)
    have hts : ∀ u ∈ ts, ∀ c ∈ u, wsChar c = false :=
      fun u hu => h u (List.mem_cons_of_mem t hu)
    cases ts with
    | nil =>
      cases t with
      | nil => rfl
      | cons a t' =>
        have hj : joinSpace [a :: t'] = (a :: t') ++ [] := by
          simp [joinSpace, joinSep]
        rw [hj, splitWsRuns_append_run (a :: t') [] [] ht, List.append_nil,
          splitWsRuns_nil]
        have hne : ((a :: t').reverse).isEmpty = false := by
          simp [List.isEmpty_eq_false]
        rw [if_neg (by rw [hne]; exact Bool.false_ne_true), List.reverse_reverse]
        simp [List.filter_cons]
    | cons t' ts' =>
      have hj : joinSpace (t :: t' :: ts') = t ++ (' ' :: joinSpace (t' :: ts')) := by
        show t ++ [' '] ++ joinSep [' '] (t' :: ts') = _
        rw [List.append_assoc]
        rfl
      rw [hj, splitWsRuns_append_run t (' ' :: joinSpace (t' :: ts')) [] ht,
        List.append_nil, splitWsRuns_cons_ws ' ' _ _ (by decide)]
      cases t with
      | nil =>
        rw [if_pos (show (([] : List Char).reverse).isEmpty = true from rfl), ih hts]
        simp [List.filter_cons]
      | cons a t'' =>
        have hne : ((a :: t'').reverse).isEmpty = false := by
          simp [List.isEmpty_eq_false]
        rw [if_neg (by rw [hne]; exact Bool.false_ne_true), List.reverse_reverse,
          ih hts]
        simp [List.filter_cons]

/-- Amended C6: re-normalizing the canonical string is the same as
re-applying the final three stages — the empty-token filter, the stopword
filter and suffix stripping — to the first result.  Normalization is
therefore idempotent exactly when those stages fix every token of
`normalizeTokens s`; in general it is not (see the counterexample at
"thes", whose first pass produces the stopword `the`). -/
theorem renormalize_eq_refilter_restrip (s : List Char) :
    normalizeTokens (joinSpace (normalizeTokens s))
      = (((normalizeTokens s).filter (fun t => !t.isEmpty)).filter
          (fun t => !(STOPWORDS.contains t))).map stripToken := by
  have hclean := normalizeTokens_chars s
  have hnws : ∀ t ∈ normalizeTokens s, ∀ c ∈ t, wsChar c = false :=
    fun t ht c hc => lowerAlnum_not_ws (hclean t ht c hc)
  have hfixlow : (joinSpace (normalizeTokens s)).map toLowerChar
      = joinSpace (normalizeTokens s) := by
    refine map_fix fun c hc => ?_
    rcases joinSpace_mem (normalizeTokens s) c hc with ⟨t, ht, hct⟩ | rfl
    · exact toLowerChar_fix (hclean t ht c hct)
    · rfl
  have hfixclean : (joinSpace (normalizeTokens s)).map cleanChar
      = joinSpace (normalizeTokens s) := by
    refine map_fix fun c hc => ?_
    rcases joinSpace_mem (normalizeTokens s) c hc with ⟨t, ht, hct⟩ | rfl
    · exact cleanChar_fix (hclean t ht c hct)
    · rfl
  show ((splitWsRuns (((joinSpace (normalizeTokens s)).map toLowerChar).map cleanChar)
      []).filter (fun t => !(STOPWORDS.contains t))).map stripToken = _
  rw [hfixlow, hfixclean, splitWsRuns_joinSpace (normalizeTokens s) hnws]

/-- Counterexample to C6 (normalization idempotence) at the input "thes":
the first pass strips the final `s`, producing the token `the`, which the
stopword filter of a second pass removes, so re-normalizing the canonical
string yields a different (empty) token sequence. -/
theorem normalize_not_idempotent_at_thes :
    normalizeTokens "thes".data = ["the".data]
    ∧ normalizeTokens (joinSpace (normalizeTokens "thes".data)) = []
    ∧ normalizeTokens (joinSpace (normalizeTokens "thes".data))
        ≠ normalizeTokens "thes".data := by
  decide

/-! ### Step lemmas for the orchestrator loop. -/

theorem briefLoop_guard_stop (complete : List Msg → Except (List Char) (List Char))
    (p : GateParams) (sys : List Char) (fuel : Nat) (st : BriefState)
    (hrc : ¬ st.retryCount ≤ MAX_RETRIES) :
    briefLoop complete p sys (fuel + 1) st = st := by
  simp only [briefLoop]
  rw [if_neg hrc]

theorem briefLoop_ok_pass (complete : List Msg → Except (List Char) (List Char))
    (p : GateParams) (sys : List Char) (fuel : Nat) (st : BriefState) (md : List Char)
    (hrc : st.retryCount ≤ MAX_RETRIES)
    (hc : complete (mkMessages sys st.userPrompt) = .ok md)
    (he : ¬ 0 < (runValidation p md).1.length) :
    briefLoop complete p sys (fuel + 1) st =
      { st with markdown := md, moves := extractMoves md,
                similarityReport := updatedSimReport p st.similarityReport md,
                calls := st.calls + 1,
                convs := st.convs ++ [mkMessages sys st.userPrompt] } := by
  simp only [briefLoop]
  rw [if_pos hrc, hc]
  dsimp only
  rw [if_neg he]

theorem briefLoop_ok_fail_stop (complete : List Msg → Except (List Char) (List Char))
    (p : GateParams) (sys : List Char) (fuel : Nat) (st : BriefState) (md : List Char)
    (hrc : st.retryCount ≤ MAX_RETRIES)
    (hc : complete (mkMessages sys st.userPrompt) = .ok md)
    (he : 0 < (runValidation p md).1.length)
    (hmax : MAX_RETRIES < st.retryCount + 1) :
    briefLoop complete p sys (fuel + 1) st =
      { st with retryCount := st.retryCount + 1, markdown := md,
                moves := extractMoves md,
                similarityReport := updatedSimReport p st.similarityReport md,
                calls := st.calls + 1,
                convs := st.convs ++ [mkMessages sys st.userPrompt] } := by
  simp only [briefLoop]
  rw [if_pos hrc, hc]
  dsimp only
  rw [if_pos he, if_pos hmax]

theorem briefLoop_ok_fail_retry (complete : List Msg → Except (List Char) (List Char))
    (p : GateParams) (sys : List Char) (fuel : Nat) (st : BriefState) (md : List Char)
    (hrc : st.retryCount ≤ MAX_RETRIES)
    (hc : complete (mkMessages sys st.userPrompt) = .ok md)
    (he : 0 < (runValidation p md).1.length)
    (hmax : ¬ MAX_RETRIES < st.retryCount + 1) :
    briefLoop complete p sys (fuel + 1) st =
      briefLoop complete p sys fuel
        { st with retryCount := st.retryCount + 1, markdown := md,
                  moves := extractMoves md,
                  similarityReport := updatedSimReport p st.similarityReport md,
                  calls := st.calls + 1,
                  convs := st.convs ++ [mkMessages sys st.userPrompt],
                  userPrompt := st.userPrompt ++ FEEDBACK_HEADER
                    ++ validationFailedMsg (runValidation p md).1 } := by
  simp only [briefLoop]
  rw [if_pos hrc, hc]
  dsimp only
  rw [if_pos he, if_neg hmax]

theorem briefLoop_err_stop (complete : List Msg → Except (List Char) (List Char))
    (p : GateParams) (sys : List Char) (fuel : Nat) (st : BriefState) (e : List Char)
    (hrc : st.retryCount ≤ MAX_RETRIES)
    (hc : complete (mkMessages sys st.userPrompt) = .error e)
    (hmax : MAX_RETRIES < st.retryCount + 1) :
    briefLoop complete p sys (fuel + 1) st =
      { st with retryCount := st.retryCount + 1, calls := st.calls + 1,
                convs := st.convs ++ [mkMessages sys st.userPrompt] } := by
  simp only [briefLoop]
  rw [if_pos hrc, hc]
  dsimp only
  rw [if_pos hmax]

theorem briefLoop_err_retry (complete : List Msg → Except (List Char) (List Char))
    (p : GateParams) (sys : List Char) (fuel : Nat) (st : BriefState) (e : List Char)
    (hrc : st.retryCount ≤ MAX_RETRIES)
    (hc : complete (mkMessages sys st.userPrompt) = .error e)
    (hmax : ¬ MAX_RETRIES < st.retryCount + 1) :
    briefLoop complete p sys (fuel + 1) st =
      briefLoop complete p sys fuel
        { st with retryCount := st.retryCount + 1, calls := st.calls + 1,
                  convs := st.convs ++ [mkMessages sys st.userPrompt],
                  userPrompt := st.userPrompt ++ FEEDBACK_HEADER ++ e } := by
  simp only [briefLoop]
  rw [if_pos hrc, hc]
  dsimp only
  rw [if_neg hmax]

/-- Whatever happens, the loop only ever appends to the conversation log. -/
theorem briefLoop_convs_extend (complete : List Msg → Except (List Char) (List Char))
    (p : GateParams) (sys : List Char) :
    ∀ (fuel : Nat) (st : BriefState), ∃ rest,
      (briefLoop complete p sys fuel st).convs = st.convs ++ rest := by
  intro fuel
  induction fuel with
  | zero => intro st; exact ⟨[], by simp [briefLoop]⟩
  | succ fuel ih =>
    intro st
    by_cases hrc : st.retryCount ≤ MAX_RETRIES
    · cases hcv : complete (mkMessages sys st.userPrompt) with
      | ok md =>
        by_cases hval : 0 < (runValidation p md).1.length
        · by_cases hmax : MAX_RETRIES < st.retryCount + 1
          · rw [briefLoop_ok_fail_stop complete p sys fuel st md hrc hcv hval hmax]
            exact ⟨[mkMessages sys st.userPrompt], rfl⟩
          · rw [briefLoop_ok_fail_retry complete p sys fuel st md hrc hcv hval hmax]
            obtain ⟨rest, hrest⟩ := ih
              { st with retryCount := st.retryCount + 1, markdown := md,
                        moves := extractMoves md,
                        similarityReport := updatedSimReport p st.similarityReport md,
                        calls := st.calls + 1,
                        convs := st.convs ++ [mkMessages sys st.userPrompt],
                        userPrompt := st.userPrompt ++ FEEDBACK_HEADER
                          ++ validationFailedMsg (runValidation p md).1 }
            refine ⟨mkMessages sys st.userPrompt :: rest, ?_⟩
            rw [hrest]
            simp [List.append_assoc]
        · rw [briefLoop_ok_pass complete p sys fuel st md hrc hcv hval]
          exact ⟨[mkMessages sys st.userPrompt], rfl⟩
      | error e =>
        by_cases hmax : MAX_RETRIES < st.retryCount + 1
        · rw [briefLoop_err_stop complete p sys fuel st e hrc hcv hmax]
          exact ⟨[mkMessages sys st.userPrompt], rfl⟩
        · rw [briefLoop_err_retry complete p sys fuel st e hrc hcv hmax]
          obtain ⟨rest, hrest⟩ := ih
            { st with retryCount := st.retryCount + 1, calls := st.calls + 1,
                      convs := st.convs ++ [mkMessages sys st.userPrompt],
                      userPrompt := st.userPrompt ++ FEEDBACK_HEADER ++ e }
          refine ⟨mkMessages sys st.userPrompt :: rest, ?_⟩
          rw [hrest]
          simp [List.append_assoc]
    · rw [briefLoop_guard_stop complete p sys fuel st hrc]
      exact ⟨[], by simp⟩

/-- While the loop guard holds, the next conversation sent to the service is
exactly the system prompt plus the current (feedback-extended) user
prompt. -/
theorem briefLoop_next_conv (complete : List Msg → Except (List Char) (List Char))
    (p : GateParams) (sys : List Char) (fuel : Nat) (st : BriefState)
    (hrc : st.retryCount ≤ MAX_RETRIES) :
    ∃ rest, (briefLoop complete p sys (fuel + 1) st).convs
      = st.convs ++ mkMessages sys st.userPrompt :: rest := by
  cases hcv : complete (mkMessages sys st.userPrompt) with
  | ok md =>
    by_cases hval : 0 < (runValidation p md).1.length
    · by_cases hmax : MAX_RETRIES < st.retryCount + 1
      · rw [briefLoop_ok_fail_stop complete p sys fuel st md hrc hcv hval hmax]
        exact ⟨[], rfl⟩
      · rw [briefLoop_ok_fail_retry complete p sys fuel st md hrc hcv hval hmax]
        obtain ⟨rest, hrest⟩ := briefLoop_convs_extend complete p sys fuel
          { st with retryCount := st.retryCount + 1, markdown := md,
                    moves := extractMoves md,
                    similarityReport := updatedSimReport p st.similarityReport md,
                    calls := st.calls + 1,
                    convs := st.convs ++ [mkMessages sys st.userPrompt],
                    userPrompt := st.userPrompt ++ FEEDBACK_HEADER
                      ++ validationFailedMsg (runValidation p md).1 }
        refine ⟨rest, ?_⟩
        rw [hrest]
        simp [List.append_assoc]
    · rw [briefLoop_ok_pass complete p sys fuel st md hrc hcv hval]
      exact ⟨[], rfl⟩
  | error e =>
    by_cases hmax : MAX_RETRIES < st.retryCount + 1
    · rw [briefLoop_err_stop complete p sys fuel st e hrc hcv hmax]
      exact ⟨[], rfl⟩
    · rw [briefLoop_err_retry complete p sys fuel st e hrc hcv hmax]
      obtain ⟨rest, hrest⟩ := briefLoop_convs_extend complete p sys fuel
        { st with retryCount := st.retryCount + 1, calls := st.calls + 1,
                  convs := st.convs ++ [mkMessages sys st.userPrompt],
                  userPrompt := st.userPrompt ++ FEEDBACK_HEADER ++ e }
      refine ⟨rest, ?_⟩
      rw [hrest]
      simp [List.append_assoc]

/-! ### Lemmas about the individual gates. -/

theorem mem_infix_joinSep (sep : List Char) :
    ∀ (l : List (List Char)) (x : List Char), x ∈ l → x <:+: joinSep sep l
  | [], x, hx => absurd hx (List.not_mem_nil x)
  | [t], x, hx => by
    rcases List.mem_singleton.mp hx with rfl
    exact List.infix_refl x
  | t :: t' :: ts, x, hx => by
    have hj : joinSep sep (t :: t' :: ts) = (t ++ sep) ++ joinSep sep (t' :: ts) := rfl
    rcases List.mem_cons.mp hx with rfl | hx'
    · rw [hj]
      have hpre : x <+: (x ++ sep) ++ joinSep sep (t' :: ts) := by
        rw [List.append_assoc]
        exact List.prefix_append x (sep ++ joinSep sep (t' :: ts))
      exact hpre.isInfix
    · rw [hj]
      exact (mem_infix_joinSep sep (t' :: ts) x hx').trans
        (List.suffix_append (t ++ sep) (joinSep sep (t' :: ts))).isInfix

theorem mem_gateMoveCount {mv : List (List Char)} {e : VError}
    (h : e ∈ gateMoveCount mv) : e = VError.wrongMoveCount mv.length := by
  unfold gateMoveCount at h
  split_ifs at h
  · exact List.mem_singleton.mp h
  · exact absurd h (List.not_mem_nil e)

theorem mem_gateFrameworks {fw : List (List Char)} {md : List Char} {e : VError}
    (h : e ∈ gateFrameworks fw md) :
    e = VError.invalidFrameworks (invalidFrameworksOf fw md) fw
      ∧ 0 < fw.length ∧ 0 < (invalidFrameworksOf fw md).length := by
  unfold gateFrameworks at h
  split_ifs at h with h1 h2
  · exact ⟨List.mem_singleton.mp h, h1, h2⟩
  · exact absurd h (List.not_mem_nil e)
  · exact absurd h (List.not_mem_nil e)

theorem mem_gateMarker {lb : Option LastBriefInfo} {md : List Char} {e : VError}
    (h : e ∈ gateMarker lb md) :
    e = VError.duplicateResolutionMarker (countSub MARKER md)
      ∧ lb.isSome = true ∧ 1 < countSub MARKER md := by
  cases lb with
  | none =>
    simp only [gateMarker] at h
    exact absurd h (List.not_mem_nil e)
  | some l =>
    simp only [gateMarker] at h
    split_ifs at h with h1 h2
    · exact ⟨List.mem_singleton.mp h, rfl, h2⟩
    · exact absurd h (List.not_mem_nil e)
    · exact absurd h (List.not_mem_nil e)

theorem mem_gateHighlights {md : List Char} {e : VError}
    (h : e ∈ gateHighlights md) : e = VError.duplicateHighlightsSection := by
  unfold gateHighlights at h
  split_ifs at h
  · exact List.mem_singleton.mp h
  · exact absurd h (List.not_mem_nil e)

theorem mem_gateSimilarity {p : GateParams} {mv : List (List Char)} {e : VError}
    (h : e ∈ (gateSimilarity p mv).2) :
    ∃ pr, e = VError.similarityFailed pr := by
  unfold gateSimilarity at h
  split_ifs at h with h1
  · rcases hlb : p.lastBrief with _ | lb
    · rw [hlb] at h
      exact absurd h (List.not_mem_nil e)
    · rw [hlb] at h
      dsimp only at h
      rcases hm : lb.moves with _ | pm
      · rw [hm] at h
        exact absurd h (List.not_mem_nil e)
      · rw [hm] at h
        dsimp only at h
        split_ifs at h
        · exact absurd h (List.not_mem_nil e)
        · exact ⟨_, List.mem_singleton.mp h⟩
  · exact absurd h (List.not_mem_nil e)

/-- Membership in the error list decomposes over the five gates. -/
theorem mem_runValidation (p : GateParams) (md : List Char) (e : VError) :
    e ∈ (runValidation p md).1 ↔
      e ∈ gateMoveCount (extractMoves md) ∨ e ∈ gateFrameworks p.frameworkNames md
      ∨ e ∈ gateMarker p.lastBrief md ∨ e ∈ gateHighlights md
      ∨ e ∈ (gateSimilarity p (extractMoves md)).2 := by
  unfold runValidation
  simp [List.mem_append, or_assoc]

/-! ### Claim theorems about the orchestrator. -/

/-- Counterexample to C1: with `maxRetries = 2` and a service whose every
returned text fails validation, the orchestrator does make exactly 3
generation calls, but the returned result carries `retryCount = 3`, not 2
— the `catch` block increments the counter on the final failed attempt as
well before breaking out of the loop.  (The result also carries no
validation-error list at all: `BriefState`, like the source's
`BriefGenerationResult`, has no errors field.) -/
theorem retry_exhaustion_counterexample :
    (generateBrief alwaysOkBad plainParams [] []).calls = 3
    ∧ (generateBrief alwaysOkBad plainParams [] []).retryCount = 3
    ∧ (generateBrief alwaysOkBad plainParams [] []).retryCount ≠ 2 := by
  decide

/-- Amended C1: with `maxRetries = 2` and a generation service whose every
returned text fails validation, the orchestrator makes exactly 3
generation-service calls (the initial call plus 2 retries), terminates, and
returns a result whose `retryCount` is 3 (the counter counts failed
attempts, not retries) and whose markdown is the last attempt's text, which
still fails validation; the validation errors themselves are not part of
the returned result. -/
theorem retry_exhaustion_behavior
    (complete : List Msg → Except (List Char) (List Char)) (p : GateParams)
    (sys usr : List Char)
    (h : ∀ conv, ∃ md, complete conv = .ok md ∧ (runValidation p md).1 ≠ []) :
    (generateBrief complete p sys usr).calls = 3
    ∧ (generateBrief complete p sys usr).retryCount = 3
    ∧ (runValidation p (generateBrief complete p sys usr).markdown).1 ≠ [] := by
  obtain ⟨md1, hc1, he1⟩ := h (mkMessages sys usr)
  obtain ⟨md2, hc2, he2⟩ := h (mkMessages sys
    (usr ++ FEEDBACK_HEADER ++ validationFailedMsg (runValidation p md1).1))
  obtain ⟨md3, hc3, he3⟩ := h (mkMessages sys
    (usr ++ FEEDBACK_HEADER ++ validationFailedMsg (runValidation p md1).1
      ++ FEEDBACK_HEADER ++ validationFailedMsg (runValidation p md2).1))
  have E : generateBrief complete p sys usr =
      { retryCount := 3,
        userPrompt := usr ++ FEEDBACK_HEADER ++ validationFailedMsg (runValidation p md1).1
          ++ FEEDBACK_HEADER ++ validationFailedMsg (runValidation p md2).1,
        markdown := md3, moves := extractMoves md3,
        similarityReport := updatedSimReport p
          (updatedSimReport p (updatedSimReport p none md1) md2) md3,
        calls := 3,
        convs := [mkMessages sys usr,
          mkMessages sys (usr ++ FEEDBACK_HEADER
            ++ validationFailedMsg (runValidation p md1).1),
          mkMessages sys (usr ++ FEEDBACK_HEADER
            ++ validationFailedMsg (runValidation p md1).1
            ++ FEEDBACK_HEADER ++ validationFailedMsg (runValidation p md2).1)] } :=
    (briefLoop_ok_fail_retry complete p sys 2 ⟨0, usr, [], [], none, 0, []⟩ md1
        (show (0 : Nat) ≤ MAX_RETRIES by decide) hc1 (List.length_pos.mpr he1)
        (show ¬ MAX_RETRIES < 0 + 1 by decide)).trans
      ((briefLoop_ok_fail_retry complete p sys 1
          ⟨1, usr ++ FEEDBACK_HEADER ++ validationFailedMsg (runValidation p md1).1,
            md1, extractMoves md1, updatedSimReport p none md1, 1,
            [mkMessages sys usr]⟩ md2
          (show (1 : Nat) ≤ MAX_RETRIES by decide) hc2 (List.length_pos.mpr he2)
          (show ¬ MAX_RETRIES < 1 + 1 by decide)).trans
        (briefLoop_ok_fail_stop complete p sys 0
          ⟨2, usr ++ FEEDBACK_HEADER ++ validationFailedMsg (runValidation p md1).1
              ++ FEEDBACK_HEADER ++ validationFailedMsg (runValidation p md2).1,
            md2, extractMoves md2,
            updatedSimReport p (updatedSimReport p none md1) md2, 2,
            [mkMessages sys usr,
              mkMessages sys (usr ++ FEEDBACK_HEADER
                ++ validationFailedMsg (runValidation p md1).1)]⟩ md3
          (show (2 : Nat) ≤ MAX_RETRIES by decide) hc3 (List.length_pos.mpr he3)
          (show MAX_RETRIES < 2 + 1 by decide)))
  rw [E]
  exact ⟨rfl, rfl, he3⟩

/-- Witness for C1 (amended) at the concrete always-invalid service. -/
theorem retry_exhaustion_behavior_witness :
    (generateBrief alwaysOkBad plainParams [] []).calls = 3
    ∧ (generateBrief alwaysOkBad plainParams [] []).retryCount = 3
    ∧ (runValidation plainParams
        (generateBrief alwaysOkBad plainParams [] []).markdown).1 ≠ [] :=
  retry_exhaustion_behavior alwaysOkBad plainParams [] []
    (fun _ => ⟨"x".data, rfl, by decide⟩)

/-- Counterexample to C2: in the validation-retry orchestrator, a
generation-service call that throws does NOT propagate and further calls
ARE made: with a service that always fails at the transport level, the
orchestrator still makes 3 calls, returns normally (its result type has no
failure channel), and reports `retryCount = 3` with the best-effort (here
empty) markdown. -/
theorem transport_failure_counterexample :
    (generateBrief alwaysErr plainParams [] []).calls = 3
    ∧ (generateBrief alwaysErr plainParams [] []).retryCount = 3
    ∧ (generateBrief alwaysErr plainParams [] []).markdown = [] := by
  decide

/-- Amended C2: transport-level failures are handled differently by the two
`generateBrief` variants.  (a) The validation-retry orchestrator catches a
throwing service call in the same `catch` block as validation failures: the
failure consumes a retry, its message is appended to the prompt as
feedback, and after the budget is exhausted a best-effort result is
returned — the failure never propagates and further calls are made.
(b) The `llm.ts` variant propagates a failing first call immediately as the
fatal error, making exactly one generation-service call in that
invocation. -/
theorem transport_failure_behavior :
    (∀ (complete : List Msg → Except (List Char) (List Char)) (p : GateParams)
      (sys usr : List Char),
      (∀ conv, ∃ e, complete conv = .error e) →
        (generateBrief complete p sys usr).calls = 3
        ∧ (generateBrief complete p sys usr).retryCount = 3
        ∧ (generateBrief complete p sys usr).markdown = [])
    ∧ (∀ (complete : List Msg → Except (List Char) (List Char)) (p : LlmParams)
        (sys usr e : List Char),
        complete (mkMessages sys usr) = .error e →
          llmGenerateBrief complete p sys usr = (.error FATAL_MSG, 1)) := by
  constructor
  · intro complete p sys usr h
    obtain ⟨e1, hc1⟩ := h (mkMessages sys usr)
    obtain ⟨e2, hc2⟩ := h (mkMessages sys (usr ++ FEEDBACK_HEADER ++ e1))
    obtain ⟨e3, hc3⟩ := h (mkMessages sys
      (usr ++ FEEDBACK_HEADER ++ e1 ++ FEEDBACK_HEADER ++ e2))
    have E : generateBrief complete p sys usr =
        { retryCount := 3,
          userPrompt := usr ++ FEEDBACK_HEADER ++ e1 ++ FEEDBACK_HEADER ++ e2,
          markdown := [], moves := [], similarityReport := none, calls := 3,
          convs := [mkMessages sys usr,
            mkMessages sys (usr ++ FEEDBACK_HEADER ++ e1),
            mkMessages sys (usr ++ FEEDBACK_HEADER ++ e1 ++ FEEDBACK_HEADER ++ e2)] } :=
      (briefLoop_err_retry complete p sys 2 ⟨0, usr, [], [], none, 0, []⟩ e1
          (show (0 : Nat) ≤ MAX_RETRIES by decide) hc1
          (show ¬ MAX_RETRIES < 0 + 1 by decide)).trans
        ((briefLoop_err_retry complete p sys 1
            ⟨1, usr ++ FEEDBACK_HEADER ++ e1, [], [], none, 1, [mkMessages sys usr]⟩ e2
            (show (1 : Nat) ≤ MAX_RETRIES by decide) hc2
            (show ¬ MAX_RETRIES < 1 + 1 by decide)).trans
          (briefLoop_err_stop complete p sys 0
            ⟨2, usr ++ FEEDBACK_HEADER ++ e1 ++ FEEDBACK_HEADER ++ e2, [], [], none, 2,
              [mkMessages sys usr, mkMessages sys (usr ++ FEEDBACK_HEADER ++ e1)]⟩ e3
            (show (2 : Nat) ≤ MAX_RETRIES by decide) hc3
            (show MAX_RETRIES < 2 + 1 by decide)))
    rw [E]
    exact ⟨rfl, rfl, rfl⟩
  · intro complete p sys usr e hc
    simp only [llmGenerateBrief, hc]

/-- Witness for C2 (amended) at the concrete always-throwing service. -/
theorem transport_failure_behavior_witness :
    ((generateBrief alwaysErr plainParams [] []).calls = 3
      ∧ (generateBrief alwaysErr plainParams [] []).retryCount = 3
      ∧ (generateBrief alwaysErr plainParams [] []).markdown = [])
    ∧ llmGenerateBrief alwaysErr ⟨false, false, none⟩ [] []
        = (.error FATAL_MSG, 1) :=
  ⟨transport_failure_behavior.1 alwaysErr plainParams [] []
      (fun _ => ⟨"boom".data, rfl⟩),
    transport_failure_behavior.2 alwaysErr ⟨false, false, none⟩ [] [] "boom".data rfl⟩

/-- Counterexample to C3: a document whose raw text contains the
resolution-marker line exactly twice does NOT produce a duplicate-marker
error when no prior document (`lastBrief`) is supplied — the whole gate is
guarded by the presence of `lastBrief`; the only error on this document is
the move-count one. -/
theorem duplicate_marker_counterexample :
    countSub MARKER
        "Open Thread Update: Previously:A\nOpen Thread Update: Previously:B".data = 2
    ∧ (runValidation plainParams
        "Open Thread Update: Previously:A\nOpen Thread Update: Previously:B".data).1
      = [VError.wrongMoveCount 0] := by
  decide

/-- Amended C3: the gate runner emits a `DUPLICATE_RESOLUTION_MARKER` error
if and only if a prior document (`lastBrief`) was supplied AND the raw
count of marker occurrences exceeds 1; the emitted error carries that
count.  (Zero or one occurrence never triggers the gate, and the gate is
independent of all other gates' outcomes; but absent a prior document the
gate is skipped entirely, contrary to the original claim.) -/
theorem duplicate_marker_gate (p : GateParams) (md : List Char) :
    ((∃ n, VError.duplicateResolutionMarker n ∈ (runValidation p md).1)
      ↔ p.lastBrief.isSome = true ∧ 1 < countSub MARKER md)
    ∧ ∀ n, VError.duplicateResolutionMarker n ∈ (runValidation p md).1 →
        n = countSub MARKER md := by
  constructor
  · constructor
    · rintro ⟨n, hn⟩
      rcases (mem_runValidation p md _).mp hn with h | h | h | h | h
      · exact absurd (mem_gateMoveCount h) (by simp)
      · exact absurd (mem_gateFrameworks h).1 (by simp)
      · exact ⟨(mem_gateMarker h).2.1, (mem_gateMarker h).2.2⟩
      · exact absurd (mem_gateHighlights h) (by simp)
      · obtain ⟨pr, hpr⟩ := mem_gateSimilarity h
        exact absurd hpr (by simp)
    · rintro ⟨hsome, hcnt⟩
      refine ⟨countSub MARKER md,
        (mem_runValidation p md _).mpr (Or.inr (Or.inr (Or.inl ?_)))⟩
      rcases Option.isSome_iff_exists.mp hsome with ⟨lb, hlb⟩
      rw [hlb]
      simp only [gateMarker]
      rw [if_pos (by omega), if_pos hcnt]
      exact List.mem_singleton_self _
  · intro n hn
    rcases (mem_runValidation p md _).mp hn with h | h | h | h | h
    · exact absurd (mem_gateMoveCount h) (by simp)
    · exact absurd (mem_gateFrameworks h).1 (by simp)
    · exact VError.duplicateResolutionMarker.inj (mem_gateMarker h).1
    · exact absurd (mem_gateHighlights h) (by simp)
    · obtain ⟨pr, hpr⟩ := mem_gateSimilarity h
      exact absurd hpr (by simp)

/-- Counterexample to C8: a category/framework tag captured from a
ranked-entry line that is not a member of the (here empty) caller-supplied
allow-list produces NO validation error at all — the gate body is guarded
by `frameworkNames.length > 0`, so an empty allow-list disables it; the
only error on this document is the move-count one. -/
theorem invalid_framework_counterexample :
    extractFrameworks "1) Move: Ship the pilot (Framework: SWOT)".data
      = ["SWOT".data]
    ∧ (runValidation plainParams
        "1) Move: Ship the pilot (Framework: SWOT)".data).1
      = [VError.wrongMoveCount 1]
    ∧ ∀ i a, VError.invalidFrameworks i a ∉
        (runValidation plainParams
          "1) Move: Ship the pilot (Framework: SWOT)".data).1 := by
  refine ⟨by decide, by decide, fun i a hmem => ?_⟩
  have hl : (runValidation plainParams
      "1) Move: Ship the pilot (Framework: SWOT)".data).1
      = [VError.wrongMoveCount 1] := by decide
  rw [hl] at hmem
  exact VError.noConfusion (List.mem_singleton.mp hmem)

/-- Amended C8: when the caller-supplied allow-list is non-empty, the gate
runner emits an `INVALID_CATEGORY` error iff some captured tag lies outside
the allow-list (exact string match) — but it emits exactly ONE aggregated
error carrying ALL offending values (each offending value occurs inside the
error's message), not one error per offending tag; and when the allow-list
is empty the gate is skipped entirely. -/
theorem invalid_framework_gate (p : GateParams) (md : List Char)
    (hne : p.frameworkNames ≠ []) :
    ((∃ i a, VError.invalidFrameworks i a ∈ (runValidation p md).1)
      ↔ invalidFrameworksOf p.frameworkNames md ≠ [])
    ∧ (invalidFrameworksOf p.frameworkNames md ≠ [] →
        VError.invalidFrameworks (invalidFrameworksOf p.frameworkNames md)
          p.frameworkNames ∈ (runValidation p md).1)
    ∧ ∀ f ∈ invalidFrameworksOf p.frameworkNames md,
        f <:+: VError.msg (VError.invalidFrameworks
          (invalidFrameworksOf p.frameworkNames md) p.frameworkNames) := by
  have hmem : invalidFrameworksOf p.frameworkNames md ≠ [] →
      VError.invalidFrameworks (invalidFrameworksOf p.frameworkNames md)
        p.frameworkNames ∈ (runValidation p md).1 := by
    intro hinv
    refine (mem_runValidation p md _).mpr (Or.inr (Or.inl ?_))
    unfold gateFrameworks
    rw [if_pos (List.length_pos.mpr hne), if_pos (List.length_pos.mpr hinv)]
    exact List.mem_singleton_self _
  refine ⟨⟨?_, fun hinv => ⟨_, _, hmem hinv⟩⟩, hmem, ?_⟩
  · rintro ⟨i, a, hia⟩
    rcases (mem_runValidation p md _).mp hia with h | h | h | h | h
    · exact absurd (mem_gateMoveCount h) (by simp)
    · exact fun hnil => absurd ((mem_gateFrameworks h).2.2)
        (by rw [hnil]; simp)
    · exact absurd (mem_gateMarker h).1 (by simp)
    · exact absurd (mem_gateHighlights h) (by simp)
    · obtain ⟨pr, hpr⟩ := mem_gateSimilarity h
      exact absurd hpr (by simp)
  · intro f hf
    have h1 := mem_infix_joinSep ", ".data _ f hf
    exact h1.trans
      (((List.suffix_append "Found invalid framework names: ".data
            (joinSep ", ".data (invalidFrameworksOf p.frameworkNames md))).isInfix.trans
          (List.prefix_append _
            ". You MUST use only names from the provided list: ".data).isInfix).trans
        ((List.prefix_append _ (joinSep ", ".data p.frameworkNames)).isInfix.trans
          (List.prefix_append _ ".".data).isInfix))

/-- Witness for C8 (amended) at a concrete allow-list and document with one
offending tag. -/
theorem invalid_framework_gate_witness :
    ((∃ i a, VError.invalidFrameworks i a ∈
        (runValidation ⟨["SWOT".data], none, false⟩
          "1) Move: Ship the pilot (Framework: PESTEL)".data).1)
      ↔ invalidFrameworksOf ["SWOT".data]
          "1) Move: Ship the pilot (Framework: PESTEL)".data ≠ [])
    ∧ (invalidFrameworksOf ["SWOT".data]
          "1) Move: Ship the pilot (Framework: PESTEL)".data ≠ [] →
        VError.invalidFrameworks (invalidFrameworksOf ["SWOT".data]
            "1) Move: Ship the pilot (Framework: PESTEL)".data) ["SWOT".data]
          ∈ (runValidation ⟨["SWOT".data], none, false⟩
              "1) Move: Ship the pilot (Framework: PESTEL)".data).1)
    ∧ ∀ f ∈ invalidFrameworksOf ["SWOT".data]
        "1) Move: Ship the pilot (Framework: PESTEL)".data,
        f <:+: VError.msg (VError.invalidFrameworks
          (invalidFrameworksOf ["SWOT".data]
            "1) Move: Ship the pilot (Framework: PESTEL)".data) ["SWOT".data]) :=
  invalid_framework_gate ⟨["SWOT".data], none, false⟩
    "1) Move: Ship the pilot (Framework: PESTEL)".data (by decide)

set_option maxRecDepth 8000 in
/-- Counterexample to C9: the conversation sent for the next attempt does
NOT contain the prior attempt's raw generated text.  With a service always
returning the marker text `XRAWX` (which fails validation), the second
call's conversation contains no message whose content has `XRAWX` as a
substring — only the synthesized diagnostic is appended. -/
theorem retry_feedback_counterexample :
    (generateBrief alwaysOkRaw plainParams [] []).convs.length = 3
    ∧ ∀ m ∈ (generateBrief alwaysOkRaw plainParams [] []).convs.getD 1 [],
        ¬ ("XRAWX".data <:+: m.content) := by
  decide

/-- Amended C9: on a validation failure with budget remaining, the
conversation for the next attempt is the original system message plus the
user message extended (after the original prompt) with the feedback header
and a synthesized diagnostic; the diagnostic restates every validation
error (each error's message is a substring of it), but the prior attempt's
raw generated text is NOT included in the conversation. -/
theorem retry_feedback_conversation
    (complete : List Msg → Except (List Char) (List Char)) (p : GateParams)
    (sys usr md : List Char)
    (hc : complete (mkMessages sys usr) = .ok md)
    (he : (runValidation p md).1 ≠ []) :
    (generateBrief complete p sys usr).convs.getD 0 [] = mkMessages sys usr
    ∧ (generateBrief complete p sys usr).convs.getD 1 []
      = mkMessages sys (usr ++ FEEDBACK_HEADER
          ++ validationFailedMsg (runValidation p md).1)
    ∧ ∀ er ∈ (runValidation p md).1,
        VError.msg er <:+: validationFailedMsg (runValidation p md).1 := by
  have E1 : generateBrief complete p sys usr =
      briefLoop complete p sys 2
        ⟨1, usr ++ FEEDBACK_HEADER ++ validationFailedMsg (runValidation p md).1,
          md, extractMoves md, updatedSimReport p none md, 1,
          [mkMessages sys usr]⟩ :=
    briefLoop_ok_fail_retry complete p sys 2 ⟨0, usr, [], [], none, 0, []⟩ md
      (show (0 : Nat) ≤ MAX_RETRIES by decide) hc (List.length_pos.mpr he)
      (show ¬ MAX_RETRIES < 0 + 1 by decide)
  obtain ⟨rest, hconvs⟩ := briefLoop_next_conv complete p sys 1
    ⟨1, usr ++ FEEDBACK_HEADER ++ validationFailedMsg (runValidation p md).1,
      md, extractMoves md, updatedSimReport p none md, 1,
      [mkMessages sys usr]⟩ (show (1 : Nat) ≤ MAX_RETRIES by decide)
  refine ⟨?_, ?_, ?_⟩
  · rw [E1, hconvs]
    rfl
  · rw [E1, hconvs]
    rfl
  · intro er her
    have h1 : VError.msg er <:+:
        joinSep "\n- ".data ((runValidation p md).1.map VError.msg) :=
      mem_infix_joinSep "\n- ".data _ _ (List.mem_map_of_mem VError.msg her)
    exact h1.trans (List.suffix_append "Validation failed:\n- ".data _).isInfix

/-- Witness for C9 (amended) at the concrete raw-marker service. -/
theorem retry_feedback_conversation_witness :
    (generateBrief alwaysOkRaw plainParams [] []).convs.getD 0 []
      = mkMessages [] []
    ∧ (generateBrief alwaysOkRaw plainParams [] []).convs.getD 1 []
      = mkMessages [] ([] ++ FEEDBACK_HEADER
          ++ validationFailedMsg (runValidation plainParams "XRAWX".data).1)
    ∧ ∀ er ∈ (runValidation plainParams "XRAWX".data).1,
        VError.msg er <:+:
          validationFailedMsg (runValidation plainParams "XRAWX".data).1 :=
  retry_feedback_conversation alwaysOkRaw plainParams [] [] "XRAWX".data rfl
    (by decide)

end DeltaBrief
